import Mathlib

/-!
Verification development for the connection-pool and tool-execution layer of
the codeninja MCP server.

The definitions below are a shallow embedding of:
  * `src/utils/connection-pool.ts` (class `SSEConnectionPool`), and
  * `src/utils/tool-execution.ts` (`safeToolExecution`, `validateToolArgs`,
    `withRetry`, `withTimeout`, `executeWithResilience`, `createSafeTool`),
together with the error classes of `src/types/http-transport.js` and
`src/types/mcp-server.js` that those functions construct.

Modelling conventions:
  * Timestamps (`Date` / `Date.now()`) are natural numbers (milliseconds).
  * The JS `Map<string, SSEConnection>` is an insertion-ordered association
    list; `Map.set` overwrites in place, `Map.delete` removes by key,
    iteration follows insertion order, exactly as in V8.
  * A JS function that can `throw` is embedded in the `Except` monad; the
    thrown value ranges over `Thrown` (an `MCPServerError` subclass, a plain
    `Error`, or an arbitrary non-`Error` value), so handlers that throw
    arbitrary values are representable.
  * Console logging has no observable effect on the modelled state and is
    omitted.
-/

/-- A JavaScript value, rich enough for tool arguments, error `details`
payloads and thrown non-`Error` values. -/
inductive JSVal where
  | str (s : String)
  | num (n : Int)
  | bool (b : Bool)
  | null
  | undefined
  | obj (fields : List (String × JSVal))
  | arr (elems : List JSVal)

/-- Property lookup `v[k]` as used by the type-guard validators:
only plain objects have named fields; anything else yields `undefined`. -/
def jsGetField : JSVal → String → JSVal
  | JSVal.obj fields, k => ((fields.find? (fun p => p.1 = k)).map (fun p => p.2)).getD JSVal.undefined
  | _, _ => JSVal.undefined

/-- JS `typeof v === 'object' && v !== null` (arrays are objects; `null` has
typeof `'object'` but is excluded by the guard). -/
def isObjectNonNull : JSVal → Bool
  | JSVal.obj _ => true
  | JSVal.arr _ => true
  | _ => false

/-- Embedding of `isGetWorkflowArgs` from `src/types/mcp-server.js`:
an object whose `workflowId` field is a string. -/
def isGetWorkflowArgs (args : JSVal) : Bool :=
  isObjectNonNull args &&
    (match jsGetField args "workflowId" with
     | JSVal.str _ => true
     | _ => false)

/-- Embedding of `isCreateWorkflowArgs` from `src/types/mcp-server.js`:
an object whose `name` field is a string. -/
def isCreateWorkflowArgs (args : JSVal) : Bool :=
  isObjectNonNull args &&
    (match jsGetField args "name" with
     | JSVal.str _ => true
     | _ => false)

/-! ## Connection-pool data model (`src/utils/connection-pool.ts`) -/

/-- Embedding of `ClientInfo` from `src/types/mcp-server.js`; only `version` is read by the
pool (for the `connected` event details). -/
structure ClientInfo where
  version : String
deriving Repr, DecidableEq

/-- The slice of the Express `Response` object the pool touches:
`headersSent`, and whether `response.end()` would throw when called
(modelling the failure the `try/catch` in `removeConnection` swallows). -/
structure SSEResponse where
  headersSent : Bool
  endThrows : Bool
deriving Repr, DecidableEq

/-- Embedding of `SSEConnection` from `src/types/http-transport.js` (the `transport` handle
carries no pool-observable state and is omitted). -/
structure SSEConnection where
  id : String
  clientInfo : ClientInfo
  connectedAt : Nat
  lastActivity : Nat
  response : SSEResponse
  isActive : Bool
deriving Repr, DecidableEq

/-- The four `ConnectionEvent` kinds of `src/types/http-transport.js`. -/
inductive ConnEventKind where
  | connected
  | disconnected
  | error
  | timeout
deriving Repr, DecidableEq

/-- Embedding of the `ConnectionEvent` record. -/
structure ConnectionEvent where
  connectionId : String
  event : ConnEventKind
  timestamp : Nat
  details : Option String
deriving Repr, DecidableEq

/-- The fields of `HTTPTransportConfig` the pool reads. -/
structure HTTPTransportConfig where
  maxConnections : Nat
  connectionTimeout : Nat
  keepAliveTimeout : Nat
deriving Repr, DecidableEq

/-- The mutable state of an `SSEConnectionPool` instance:
`connections` (a JS `Map`, embedded as an insertion-ordered association
list), `connectionHistory`, and the `isShuttingDown` flag. -/
structure PoolState where
  connections : List (String × SSEConnection)
  connectionHistory : List ConnectionEvent
  isShuttingDown : Bool
deriving Repr, DecidableEq

/-- Pool state right after the constructor runs. -/
def initialPool : PoolState :=
  { connections := [], connectionHistory := [], isShuttingDown := false }

/-- JS `Map.get`. -/
def mapGet (m : List (String × SSEConnection)) (k : String) : Option SSEConnection :=
  (m.find? (fun p => p.1 = k)).map (fun p => p.2)

/-- JS `Map.set`: overwrites in place when the key is present (keeping its
insertion position), otherwise appends. -/
def mapSet (m : List (String × SSEConnection)) (k : String) (v : SSEConnection) :
    List (String × SSEConnection) :=
  if m.any (fun p => p.1 = k) then
    m.map (fun p => if p.1 = k then (k, v) else p)
  else
    m ++ [(k, v)]

/-- JS `Map.delete`. -/
def mapDelete (m : List (String × SSEConnection)) (k : String) :
    List (String × SSEConnection) :=
  m.filter (fun p => p.1 ≠ k)

/-- The errors `addConnection` can throw: `ConnectionPoolFullError` from
`src/types/http-transport.js` (with its `details` payload), or the plain
`Error('Connection pool is shutting down')` thrown while draining — the
failure the spec calls `ShutdownError`. -/
inductive PoolError where
  | poolFull (maxConnections : Nat) (currentConnections : Nat)
  | shuttingDown
deriving Repr, DecidableEq

/-- The `error.message` for the two pool errors, as built by the constructors in
the source. -/
def PoolError.message : PoolError → String
  | PoolError.poolFull maxConnections _ =>
      "Connection pool full. Maximum " ++ toString maxConnections ++ " connections allowed."
  | PoolError.shuttingDown => "Connection pool is shutting down"

/-- Embedding of `addConnectionEvent`: push, then keep only the last 1000 events
(`splice(0, length - 1000)`). -/
def addConnectionEvent (history : List ConnectionEvent) (event : ConnectionEvent) :
    List ConnectionEvent :=
  let pushed := history ++ [event]
  if pushed.length > 1000 then pushed.drop (pushed.length - 1000) else pushed

/-- Embedding of `addConnection`: rejects while shutting down (mutating nothing); rejects
with `ConnectionPoolFullError` when `connections.size >= maxConnections`,
recording an `error` event first; otherwise inserts and records a
`connected` event. The JS method throws; here the new state is returned
together with `some` thrown error or `none` on success. -/
def addConnection (cfg : HTTPTransportConfig) (now : Nat) (s : PoolState)
    (connection : SSEConnection) : PoolState × Option PoolError :=
  if s.isShuttingDown then
    (s, some PoolError.shuttingDown)
  else if cfg.maxConnections ≤ s.connections.length then
    let err := PoolError.poolFull cfg.maxConnections s.connections.length
    let ev : ConnectionEvent :=
      { connectionId := connection.id, event := ConnEventKind.error,
        timestamp := now, details := some err.message }
    ({ s with connectionHistory := addConnectionEvent s.connectionHistory ev }, some err)
  else
    let ev : ConnectionEvent :=
      { connectionId := connection.id, event := ConnEventKind.connected,
        timestamp := now,
        details := some ("Client: " ++ connection.clientInfo.version) }
    ({ s with
        connections := mapSet s.connections connection.id connection,
        connectionHistory := addConnectionEvent s.connectionHistory ev },
     none)

/-- The call `response.end()` as a fallible call: fails exactly when the modelled
response would throw. -/
def respEnd (r : SSEResponse) : Except String Unit :=
  if r.endThrows then Except.error "end failed" else Except.ok ()

/-- Embedding of `removeConnection`: no-op when the id is unknown; otherwise best-effort
close of the response (`try { if (response && !headersSent) response.end() }
catch { warn }` — both outcomes continue identically), then delete from the
map and record a `disconnected` event. The method never throws. -/
def removeConnection (now : Nat) (s : PoolState) (connectionId : String) : PoolState :=
  match mapGet s.connections connectionId with
  | none => s
  | some connection =>
    let ev : ConnectionEvent :=
      { connectionId := connectionId, event := ConnEventKind.disconnected,
        timestamp := now, details := none }
    let removed : PoolState :=
      { s with
          connections := mapDelete s.connections connectionId,
          connectionHistory := addConnectionEvent s.connectionHistory ev }
    match (if connection.response.headersSent then Except.ok () else respEnd connection.response) with
    | Except.ok _ => removed
    | Except.error _ => removed

/-- The `connectionsToRemove` collected by the sweep's first loop: every
connection whose `now - lastActivity` strictly exceeds `connectionTimeout`
(JS computes a signed difference; a clock that went backwards gives a
negative difference, never above the timeout, matching truncated `Nat`
subtraction here). -/
def sweepExpired (cfg : HTTPTransportConfig) (now : Nat) (s : PoolState) :
    List (String × SSEConnection) :=
  s.connections.filter (fun p => cfg.connectionTimeout < now - p.2.lastActivity)

/-- The `timeout` event the sweep records for an expired connection. -/
def sweepTimeoutEvent (now : Nat) (p : String × SSEConnection) : ConnectionEvent :=
  { connectionId := p.1, event := ConnEventKind.timeout, timestamp := now,
    details := some ("Timeout after " ++ toString (now - p.2.lastActivity) ++ "ms") }

/-- The event history after the sweep's first loop: a `timeout` event pushed
for every expired connection, in iteration order. -/
def sweepHistory (cfg : HTTPTransportConfig) (now : Nat) (s : PoolState) :
    List ConnectionEvent :=
  (sweepExpired cfg now s).foldl (fun h p => addConnectionEvent h (sweepTimeoutEvent now p))
    s.connectionHistory

/-- Embedding of `cleanupInactiveConnections`: the first loop records a `timeout` event for
every expired connection (`sweepHistory`); the second loop removes those
connections via `removeConnection`. Returns the new state and the number of
removed connections. -/
def cleanupInactiveConnections (cfg : HTTPTransportConfig) (now : Nat) (s : PoolState) :
    PoolState × Nat :=
  ((sweepExpired cfg now s).foldl (fun st p => removeConnection now st p.1)
    { s with connectionHistory := sweepHistory cfg now s },
   (sweepExpired cfg now s).length)

/-- Embedding of `shutdown`: sets `isShuttingDown`, then removes every current connection
(`Promise.allSettled` over `removeConnection` per id; each removal is
synchronous and never rejects, so the settled order is the map order). -/
def shutdown (now : Nat) (s : PoolState) : PoolState :=
  let s1 : PoolState := { s with isShuttingDown := true }
  let connectionIds := s1.connections.map (fun p => p.1)
  connectionIds.foldl (fun st id => removeConnection now st id) s1

/-- One client-visible pool operation, for reasoning about call sequences. -/
inductive PoolOp where
  | add (connection : SSEConnection) (now : Nat)
  | remove (id : String) (now : Nat)
deriving Repr

/-- Apply one operation (the state an observer sees after the call, whether or
not the call threw). -/
def applyOp (cfg : HTTPTransportConfig) (s : PoolState) : PoolOp → PoolState
  | PoolOp.add connection now => (addConnection cfg now s connection).1
  | PoolOp.remove id now => removeConnection now s id

/-- Run a sequence of pool operations. -/
def runOps (cfg : HTTPTransportConfig) (s : PoolState) (ops : List PoolOp) : PoolState :=
  ops.foldl (applyOp cfg) s

/-! ## Tool execution (`src/utils/tool-execution.ts`) -/

mutual
/-- JS `String(v)` for the values handlers may throw (arrays join their
elements with commas; objects print as `[object Object]`). -/
def jsString : JSVal → String
  | JSVal.str s => s
  | JSVal.num n => toString n
  | JSVal.bool b => cond b "true" "false"
  | JSVal.null => "null"
  | JSVal.undefined => "undefined"
  | JSVal.obj _ => "[object Object]"
  | JSVal.arr elems => jsStringElems elems
/-- The JS `String` of each array element, joined with commas. -/
def jsStringElems : List JSVal → String
  | [] => ""
  | [v] => jsString v
  | v :: rest => jsString v ++ "," ++ jsStringElems rest
end

mutual
/-- JS `JSON.stringify` (indentation/escaping of the pretty-printed form is
not modelled; only which value got serialized matters here). -/
def jsonStringify : JSVal → String
  | JSVal.str s => "\"" ++ s ++ "\""
  | JSVal.num n => toString n
  | JSVal.bool b => cond b "true" "false"
  | JSVal.null => "null"
  | JSVal.undefined => "undefined"
  | JSVal.obj fields => "\x7b" ++ jsonFields fields ++ "\x7d"
  | JSVal.arr elems => "[" ++ jsonElems elems ++ "]"
/-- Serialized object entries, joined with commas. -/
def jsonFields : List (String × JSVal) → String
  | [] => ""
  | [(k, v)] => "\"" ++ k ++ "\":" ++ jsonStringify v
  | (k, v) :: rest => "\"" ++ k ++ "\":" ++ jsonStringify v ++ "," ++ jsonFields rest
/-- Serialized array elements, joined with commas. -/
def jsonElems : List JSVal → String
  | [] => ""
  | [v] => jsonStringify v
  | v :: rest => jsonStringify v ++ "," ++ jsonElems rest
end

/-- An `MCPServerError` instance: machine-readable `code`, `message`, and the
structured `details` payload. -/
structure MCPError where
  code : String
  message : String
  details : JSVal

/-- The `ToolExecutionError` constructor from `src/types/mcp-server.js`. -/
def mkToolExecutionError (toolName originalError : String) (args : JSVal) : MCPError :=
  { code := "TOOL_EXECUTION_ERROR",
    message := "Tool execution failed: " ++ toolName,
    details := JSVal.obj
      [("toolName", JSVal.str toolName),
       ("originalError", JSVal.str originalError),
       ("args", args)] }

/-- The `response` field an axios error carries. -/
structure AxiosResponse where
  status : Option Nat
  data : JSVal

/-- The `N8NAPIError` constructor from `src/types/mcp-server.js`. -/
def mkN8NAPIError (endpoint : String) (statusCode : Option Nat) (responseBody : String) : MCPError :=
  { code := "N8N_API_ERROR",
    message := "N8N API request failed: " ++ endpoint,
    details := JSVal.obj
      [("endpoint", JSVal.str endpoint),
       ("statusCode", match statusCode with | some n => JSVal.num n | none => JSVal.undefined),
       ("responseBody", JSVal.str responseBody)] }

/-- A thrown JS value: an `MCPServerError` subclass instance, a plain `Error`
(possibly carrying an axios-style object `response` field), or an arbitrary
non-`Error` value. -/
inductive Thrown where
  | mcpError (e : MCPError)
  | jsError (message : String) (response : Option AxiosResponse)
  | value (v : JSVal)

/-- Embedding of `createMCPError`: already-classified errors pass through; an `Error` with
an object `response` becomes `N8NAPIError`; any other `Error` and any
non-`Error` value become `ToolExecutionError`. -/
def createMCPError (toolName : String) (error : Thrown) (args : JSVal) : MCPError :=
  match error with
  | Thrown.mcpError e => e
  | Thrown.jsError msg response =>
    match response with
    | some r =>
      mkN8NAPIError toolName r.status
        (match r.data with
         | JSVal.str s => s
         | d => jsonStringify d)
    | none => mkToolExecutionError toolName msg args
  | Thrown.value v => mkToolExecutionError toolName (jsString v) args

/-- The normalization `error instanceof Error ? error : new Error(String(error))`, the
normalization `withRetry` applies before storing `lastError`. -/
def toError : Thrown → Thrown
  | Thrown.value v => Thrown.jsError (jsString v) none
  | e => e

/-- The `Result<T, E>` discriminated union of `src/types/mcp-server.js`
(`createSuccess` / `createError`). -/
inductive ToolArgsCheck (T : Type) (E : Type) where
  | success (data : T)
  | failure (e : E)

/-- Embedding of `validateToolArgs`: runs the boolean type guard; on failure builds the
`ToolExecutionError` with the fixed message `'Invalid arguments provided'`
and the raw `args` echoed in `details`. -/
def validateToolArgs (args : JSVal) (validator : JSVal → Bool) (toolName : String) :
    ToolArgsCheck JSVal MCPError :=
  if validator args then ToolArgsCheck.success args
  else ToolArgsCheck.failure (mkToolExecutionError toolName "Invalid arguments provided" args)

/-- One entry of a `ToolResponse`'s `content` array. -/
structure ContentItem where
  type : String
  text : String

/-- The `ToolResponse` envelope every dispatch path produces. -/
structure ToolResponse where
  content : List ContentItem
  isError : Bool
  metadata : JSVal

/-- Embedding of `createSuccessResponse`. -/
def createSuccessResponse (data : JSVal) (message : Option String) : ToolResponse :=
  { content := [{ type := "text", text := message.getD (jsonStringify data) }],
    isError := false,
    metadata := data }

/-- Embedding of `createErrorResponse`. -/
def createErrorResponse (error : MCPError) (toolName : String) : ToolResponse :=
  { content := [{ type := "text", text := "Error in " ++ toolName ++ ": " ++ error.message }],
    isError := true,
    metadata := JSVal.obj
      [("errorCode", JSVal.str error.code),
       ("errorDetails", error.details)] }

/-- Embedding of `safeToolExecution`: returns the handler's response when it resolves, and
otherwise (any thrown value) catches, classifies via `createMCPError`, and
returns the structured error envelope. -/
def safeToolExecution (toolName : String) (args : JSVal)
    (handlerResult : Except Thrown ToolResponse) : ToolResponse :=
  match handlerResult with
  | Except.ok result => result
  | Except.error error =>
    let mcpError := createMCPError toolName error args
    { content := [{ type := "text",
                    text := "Error executing " ++ toolName ++ ": " ++ mcpError.message }],
      isError := true,
      metadata := JSVal.obj
        [("errorCode", JSVal.str mcpError.code),
         ("errorDetails", mcpError.details)] }

/-- A promise with its settlement time (ms since the race started) and its
settlement value: resolved with a `JSVal`, or rejected with a `Thrown`. -/
structure TimedOutcome where
  time : Nat
  result : Except Thrown JSVal

/-- The rejection of the `setTimeout` promise inside `withTimeout`. -/
def timeoutThrown (timeoutMs : Nat) : Thrown :=
  Thrown.jsError ("Operation timed out after " ++ toString timeoutMs ++ "ms") none

/-- Embedding of `Promise.race([a, b])`: settles as whichever settles first. A `setTimeout`
callback never fires before its delay, so when both would settle at the same
instant the already-settled first promise (the operation) wins. -/
def promiseRace (a b : TimedOutcome) : TimedOutcome :=
  if a.time ≤ b.time then a else b

/-- Embedding of `withTimeout`: races the operation against a promise that rejects with the
timeout error exactly when `timeoutMs` elapses. -/
def withTimeout (operation : TimedOutcome) (timeoutMs : Nat) : TimedOutcome :=
  promiseRace operation { time := timeoutMs, result := Except.error (timeoutThrown timeoutMs) }

/-- Observable trace of a `withRetry` run: the settlement value, how many
times the operation was invoked, and the backoff delays awaited between
consecutive invocations. -/
structure RetryTrace where
  result : Except Thrown JSVal
  attemptsMade : Nat
  delays : List Nat

/-- The `for (attempt = 1; attempt <= maxRetries; attempt++)` loop of
`withRetry`, with `remaining = maxRetries - attempt + 1` iterations left.
On failure the error is normalized into `lastError`; the final attempt
rethrows `lastError`, earlier ones sleep `delayMs * 2 ^ (attempt - 1)`.
With zero iterations the loop exits and `throw lastError!` throws the
uninitialized (undefined) `lastError`. -/
def runRetry (op : Nat → Except Thrown JSVal) (delayMs : Nat) :
    Nat → Nat → RetryTrace
  | _, 0 => { result := Except.error (Thrown.value JSVal.undefined), attemptsMade := 0, delays := [] }
  | attempt, remaining + 1 =>
    match op attempt with
    | Except.ok v => { result := Except.ok v, attemptsMade := 1, delays := [] }
    | Except.error err =>
      if remaining = 0 then
        { result := Except.error (toError err), attemptsMade := 1, delays := [] }
      else
        { result := (runRetry op delayMs (attempt + 1) remaining).result,
          attemptsMade := (runRetry op delayMs (attempt + 1) remaining).attemptsMade + 1,
          delays := delayMs * 2 ^ (attempt - 1) ::
            (runRetry op delayMs (attempt + 1) remaining).delays }

/-- Embedding of `withRetry(operation, maxRetries, delayMs)`; the operation's behaviour is
indexed by the (1-based) invocation number. -/
def withRetry (op : Nat → Except Thrown JSVal) (maxRetries delayMs : Nat) : RetryTrace :=
  runRetry op delayMs 1 maxRetries

/-- Embedding of `executeWithResilience`: the timeout wraps each individual attempt, the
retry wraps the sequence of timed attempts. -/
def executeWithResilience (op : Nat → TimedOutcome) (maxRetries timeoutMs delayMs : Nat) :
    RetryTrace :=
  withRetry (fun attempt => (withTimeout (op attempt) timeoutMs).result) maxRetries delayMs

/-- Result of one `createSafeTool` dispatch: the response sent back, plus the
number of times the inner handler was invoked (0 when validation
short-circuits; one per retry attempt otherwise). -/
structure DispatchResult where
  response : ToolResponse
  handlerCalls : Nat

/-- The wrapper `createSafeTool` returns: validate, then execute the handler
through `executeWithResilience` with `maxRetries := 2`, `timeoutMs := 30000`
(and the default `delayMs := 1000`); the surrounding `try/catch` turns any
thrown error into `createErrorResponse (createMCPError ...)`. The handler's
behaviour is indexed by invocation number (its argument is fixed to the
validated args by the closure). -/
def dispatch (toolName : String) (validator : JSVal → Bool)
    (handler : Nat → TimedOutcome) (args : JSVal) : DispatchResult :=
  match validateToolArgs args validator toolName with
  | ToolArgsCheck.failure e =>
    { response := createErrorResponse e toolName, handlerCalls := 0 }
  | ToolArgsCheck.success _data =>
    match (executeWithResilience handler 2 30000 1000).result with
    | Except.ok v =>
      { response := createSuccessResponse v none,
        handlerCalls := (executeWithResilience handler 2 30000 1000).attemptsMade }
    | Except.error err =>
      { response := createErrorResponse (createMCPError toolName err args) toolName,
        handlerCalls := (executeWithResilience handler 2 30000 1000).attemptsMade }

/-! ## Derived predicates and sample inputs -/

/-- A response produced by `createErrorResponse` / the catch branch of
`safeToolExecution`: flagged as an error and carrying the structured
`errorCode` / `errorDetails` metadata. -/
def isStructuredErrorResponse (r : ToolResponse) : Prop :=
  r.isError = true ∧
    ∃ code details, r.metadata = JSVal.obj [("errorCode", JSVal.str code), ("errorDetails", details)]

/-- The pool invariant maintained by client-visible operation sequences:
not draining, and membership within capacity. -/
def PoolInv (cfg : HTTPTransportConfig) (s : PoolState) : Prop :=
  s.isShuttingDown = false ∧ s.connections.length ≤ cfg.maxConnections

/-- A sample handler that resolves immediately (concrete input for witnesses). -/
def okHandler : Nat → TimedOutcome :=
  fun _ => { time := 0, result := Except.ok JSVal.null }

/-- The exact error `validateToolArgs` builds for `get_workflow` given the
empty-object arguments — a spec-`ValidationError`. -/
def sampleValidationError : MCPError :=
  mkToolExecutionError "get_workflow" "Invalid arguments provided" (JSVal.obj [])

/-- A sample connection (concrete input for witnesses). -/
def mkConn (id : String) (lastActivity : Nat) (headersSent endThrows : Bool) : SSEConnection :=
  { id := id, clientInfo := { version := "1.0.0" }, connectedAt := 0,
    lastActivity := lastActivity,
    response := { headersSent := headersSent, endThrows := endThrows },
    isActive := true }

/-- A one-slot pool configuration, used as concrete witness input. -/
def poolCfg1 : HTTPTransportConfig :=
  { maxConnections := 1, connectionTimeout := 1000, keepAliveTimeout := 60000 }

/-- A pool holding one connection whose transport close would throw
(concrete input for witnesses). -/
def samplePoolA : PoolState :=
  { connections := [("a", mkConn "a" 0 false true)],
    connectionHistory := [], isShuttingDown := false }

/-- A pool holding two connections, one with a throwing close and one with
headers already sent (concrete input for witnesses). -/
def samplePoolB : PoolState :=
  { connections := [("a", mkConn "a" 0 false true), ("b", mkConn "b" 5 true false)],
    connectionHistory := [], isShuttingDown := false }

/-- A pool holding one stale and one fresh connection (concrete input for
witnesses of the sweep). -/
def samplePoolC : PoolState :=
  { connections := [("old", mkConn "old" 0 false false), ("new", mkConn "new" 5000 false false)],
    connectionHistory := [], isShuttingDown := false }

/-- An empty pool already marked as draining (concrete input for witnesses). -/
def drainingPool : PoolState :=
  { connections := [], connectionHistory := [], isShuttingDown := true }

/-! ## Lemmas about the map and event-history primitives -/

theorem find?_map_overwrite (k : String) (v : SSEConnection) :
    ∀ m : List (String × SSEConnection), m.any (fun p => p.1 = k) = true →
      List.find? (fun p => p.1 = k) (m.map (fun p => if p.1 = k then (k, v) else p)) = some (k, v) := by
  intro m
  induction m with
  | nil => simp
  | cons p t ih =>
    intro h
    by_cases hp : p.1 = k
    · simp [hp]
    · simp only [List.any_cons, Bool.or_eq_true, decide_eq_true_eq] at h
      have ht : t.any (fun p => p.1 = k) = true := by
        cases h with
        | inl h => exact absurd h hp
        | inr h => exact h
      simp only [List.map_cons, if_neg hp, List.find?_cons, decide_eq_false hp]
      exact ih ht

theorem find?_append_new (k : String) (v : SSEConnection) :
    ∀ m : List (String × SSEConnection), (∀ p ∈ m, ¬ p.1 = k) →
      List.find? (fun p => p.1 = k) (m ++ [(k, v)]) = some (k, v) := by
  intro m
  induction m with
  | nil => simp
  | cons p t ih =>
    intro h
    have hp : ¬ p.1 = k := h p (by simp)
    simp only [List.cons_append, List.find?_cons, decide_eq_false hp]
    exact ih (fun q hq => h q (by simp [hq]))

theorem mapGet_mapSet_self (m : List (String × SSEConnection)) (k : String) (v : SSEConnection) :
    mapGet (mapSet m k v) k = some v := by
  unfold mapGet mapSet
  by_cases h : m.any (fun p => p.1 = k)
  · rw [if_pos h, find?_map_overwrite k v m h]
    rfl
  · rw [if_neg h]
    have hall : ∀ p ∈ m, ¬ p.1 = k := by
      intro p hp hk
      exact h (List.any_eq_true.mpr ⟨p, hp, by simpa using hk⟩)
    rw [find?_append_new k v m hall]
    rfl

theorem length_mapSet_le (m : List (String × SSEConnection)) (k : String) (v : SSEConnection) :
    (mapSet m k v).length ≤ m.length + 1 := by
  unfold mapSet
  by_cases h : m.any (fun p => p.1 = k)
  · simp [h]
  · simp [h]

theorem mapDelete_eq_self_of_get_none (m : List (String × SSEConnection)) (k : String)
    (h : mapGet m k = none) : mapDelete m k = m := by
  unfold mapGet at h
  unfold mapDelete
  rw [Option.map_eq_none'] at h
  rw [List.find?_eq_none] at h
  apply List.filter_eq_self.mpr
  intro p hp
  simpa using fun hk => h p hp (by simpa using hk)

theorem mapGet_mapDelete_self (m : List (String × SSEConnection)) (k : String) :
    mapGet (mapDelete m k) k = none := by
  unfold mapGet mapDelete
  rw [Option.map_eq_none']
  rw [List.find?_eq_none]
  intro p hp
  have := List.of_mem_filter hp
  simpa using this

theorem length_mapDelete_le (m : List (String × SSEConnection)) (k : String) :
    (mapDelete m k).length ≤ m.length :=
  List.length_filter_le _ m

theorem addConnectionEvent_eq_append (history : List ConnectionEvent) (event : ConnectionEvent)
    (h : history.length < 1000) : addConnectionEvent history event = history ++ [event] := by
  unfold addConnectionEvent
  have : (history ++ [event]).length ≤ 1000 := by
    simp only [List.length_append, List.length_singleton]
    omega
  simp only []
  rw [if_neg (by omega : ¬ (history ++ [event]).length > 1000)]

theorem length_addConnectionEvent_le (history : List ConnectionEvent) (event : ConnectionEvent)
    (h : history.length ≤ 1000) : (addConnectionEvent history event).length ≤ 1000 := by
  unfold addConnectionEvent
  by_cases hlen : (history ++ [event]).length > 1000
  · simp only [hlen, if_true, List.length_drop]
    omega
  · simp only [hlen, if_false]
    simp only [List.length_append, List.length_singleton] at hlen ⊢
    omega

/-! ## Structural lemmas about `removeConnection` -/

theorem removeConnection_eq_of_get_none (now : Nat) (s : PoolState) (id : String)
    (h : mapGet s.connections id = none) : removeConnection now s id = s := by
  unfold removeConnection
  rw [h]

theorem removeConnection_eq_of_get_some (now : Nat) (s : PoolState) (id : String)
    (c : SSEConnection) (h : mapGet s.connections id = some c) :
    removeConnection now s id =
      { s with
          connections := mapDelete s.connections id,
          connectionHistory := addConnectionEvent s.connectionHistory
            { connectionId := id, event := ConnEventKind.disconnected,
              timestamp := now, details := none } } := by
  unfold removeConnection
  rw [h]
  by_cases hh : c.response.headersSent
  · simp [hh]
  · simp only [hh, if_false]
    unfold respEnd
    by_cases he : c.response.endThrows
    · simp [he]
    · simp [he]

theorem removeConnection_connections (now : Nat) (s : PoolState) (id : String) :
    (removeConnection now s id).connections = mapDelete s.connections id := by
  cases h : mapGet s.connections id with
  | none =>
    rw [removeConnection_eq_of_get_none now s id h, mapDelete_eq_self_of_get_none s.connections id h]
  | some c =>
    rw [removeConnection_eq_of_get_some now s id c h]

theorem removeConnection_isShuttingDown (now : Nat) (s : PoolState) (id : String) :
    (removeConnection now s id).isShuttingDown = s.isShuttingDown := by
  cases h : mapGet s.connections id with
  | none => rw [removeConnection_eq_of_get_none now s id h]
  | some c => rw [removeConnection_eq_of_get_some now s id c h]

theorem removeConnection_history_cases (now : Nat) (s : PoolState) (id : String) :
    (removeConnection now s id).connectionHistory = s.connectionHistory ∨
      (removeConnection now s id).connectionHistory =
        addConnectionEvent s.connectionHistory
          { connectionId := id, event := ConnEventKind.disconnected,
            timestamp := now, details := none } := by
  cases h : mapGet s.connections id with
  | none => left; rw [removeConnection_eq_of_get_none now s id h]
  | some c => right; rw [removeConnection_eq_of_get_some now s id c h]

/-! ## Fold lemmas for `shutdown` and the background sweep -/

theorem foldl_removeConnection_connections (now : Nat) :
    ∀ (ids : List String) (s : PoolState),
      ((ids.foldl (fun st id => removeConnection now st id) s)).connections =
        ids.foldl mapDelete s.connections := by
  intro ids
  induction ids with
  | nil => intro s; rfl
  | cons id t ih =>
    intro s
    simp only [List.foldl_cons]
    rw [ih, removeConnection_connections]

theorem foldl_removeConnection_isShuttingDown (now : Nat) :
    ∀ (ids : List String) (s : PoolState),
      ((ids.foldl (fun st id => removeConnection now st id) s)).isShuttingDown =
        s.isShuttingDown := by
  intro ids
  induction ids with
  | nil => intro s; rfl
  | cons id t ih =>
    intro s
    simp only [List.foldl_cons]
    rw [ih, removeConnection_isShuttingDown]

theorem foldl_mapDelete_eq_filter :
    ∀ (ids : List String) (m : List (String × SSEConnection)),
      ids.foldl mapDelete m = m.filter (fun p => decide (p.1 ∉ ids)) := by
  intro ids
  induction ids with
  | nil =>
    intro m
    simp only [List.foldl_nil]
    exact (List.filter_eq_self.mpr (fun a _ => by simp)).symm
  | cons k t ih =>
    intro m
    simp only [List.foldl_cons]
    rw [ih]
    unfold mapDelete
    rw [List.filter_filter]
    apply List.filter_congr
    intro p _
    by_cases hk : p.1 = k
    · simp [hk]
    · simp [hk]

theorem foldl_mapDelete_keys_nil (m : List (String × SSEConnection)) :
    (m.map (fun p => p.1)).foldl mapDelete m = [] := by
  rw [foldl_mapDelete_eq_filter]
  apply List.filter_eq_nil_iff.mpr
  intro p hp
  simp only [decide_eq_true_eq, not_not]
  exact List.mem_map_of_mem (fun q => q.1) hp

theorem foldl_addConnectionEvent_append {α : Type} (f : α → ConnectionEvent) :
    ∀ (l : List α) (h0 : List ConnectionEvent), h0.length + l.length ≤ 1000 →
      l.foldl (fun h x => addConnectionEvent h (f x)) h0 = h0 ++ l.map f := by
  intro l
  induction l with
  | nil => intro h0 _; simp
  | cons x t ih =>
    intro h0 hb
    simp only [List.length_cons] at hb
    simp only [List.foldl_cons, List.map_cons]
    rw [addConnectionEvent_eq_append h0 (f x) (by omega)]
    rw [ih (h0 ++ [f x]) (by simp; omega)]
    simp

theorem foldl_removeConnection_history_extends (now : Nat) :
    ∀ (ids : List String) (s : PoolState),
      s.connectionHistory.length + ids.length ≤ 1000 →
      s.connectionHistory <+:
          (ids.foldl (fun st id => removeConnection now st id) s).connectionHistory ∧
        (ids.foldl (fun st id => removeConnection now st id) s).connectionHistory.length ≤
          s.connectionHistory.length + ids.length := by
  intro ids
  induction ids with
  | nil => intro s _; exact ⟨List.prefix_refl _, by simp⟩
  | cons id t ih =>
    intro s hb
    simp only [List.length_cons] at hb
    simp only [List.foldl_cons, List.length_cons]
    have hstep : s.connectionHistory <+: (removeConnection now s id).connectionHistory ∧
        (removeConnection now s id).connectionHistory.length ≤ s.connectionHistory.length + 1 := by
      cases removeConnection_history_cases now s id with
      | inl h => rw [h]; exact ⟨List.prefix_refl _, by omega⟩
      | inr h =>
        rw [h, addConnectionEvent_eq_append _ _ (by omega)]
        exact ⟨List.prefix_append _ _, by simp⟩
    have hrec := ih (removeConnection now s id) (by omega)
    exact ⟨hstep.1.trans hrec.1, by omega⟩

/-! ## The pool invariant -/

theorem PoolInv_applyOp (cfg : HTTPTransportConfig) (s : PoolState) (op : PoolOp)
    (h : PoolInv cfg s) : PoolInv cfg (applyOp cfg s op) := by
  obtain ⟨hflag, hlen⟩ := h
  cases op with
  | add c now =>
    simp only [applyOp]
    unfold addConnection
    rw [hflag]
    simp only [Bool.false_eq_true, if_false]
    by_cases hc : cfg.maxConnections ≤ s.connections.length
    · rw [if_pos hc]
      exact ⟨rfl, hlen⟩
    · rw [if_neg hc]
      refine ⟨rfl, ?_⟩
      have := length_mapSet_le s.connections c.id c
      simp only []
      omega
  | remove id now =>
    simp only [applyOp]
    refine ⟨?_, ?_⟩
    · rw [removeConnection_isShuttingDown]; exact hflag
    · rw [removeConnection_connections]
      have := length_mapDelete_le s.connections id
      omega

theorem PoolInv_runOps (cfg : HTTPTransportConfig) (ops : List PoolOp) :
    PoolInv cfg (runOps cfg initialPool ops) := by
  have h0 : PoolInv cfg initialPool := ⟨rfl, by simp [initialPool]⟩
  unfold runOps
  have hgen : ∀ (l : List PoolOp) (s : PoolState), PoolInv cfg s →
      PoolInv cfg (l.foldl (applyOp cfg) s) := by
    intro l
    induction l with
    | nil => intro s hinv; exact hinv
    | cons op t ih =>
      intro s hinv
      exact ih _ (PoolInv_applyOp cfg s op hinv)
  exact hgen ops initialPool h0

/-! ## Claim theorems -/

/-- Claim C1: starting from a fresh pool, along any sequence of
`addConnection` / `removeConnection` calls the membership size never exceeds
`maxConnections`; at any reachable state, `addConnection` fails with the
pool-full error (the spec's `PoolExhaustedError`) exactly when the membership
size equals `maxConnections` — leaving membership unchanged — and otherwise
inserts the connection and records a `connected` event. -/
theorem addConnection_capacity_spec (cfg : HTTPTransportConfig) (ops : List PoolOp)
    (s : PoolState) (hs : s = runOps cfg initialPool ops) :
    s.connections.length ≤ cfg.maxConnections ∧
    (∀ (c : SSEConnection) (now : Nat), s.connections.length = cfg.maxConnections →
      (addConnection cfg now s c).2 =
        some (PoolError.poolFull cfg.maxConnections s.connections.length) ∧
      (addConnection cfg now s c).1.connections = s.connections) ∧
    (∀ (c : SSEConnection) (now : Nat), s.connections.length ≠ cfg.maxConnections →
      (addConnection cfg now s c).2 = none ∧
      mapGet (addConnection cfg now s c).1.connections c.id = some c ∧
      (addConnection cfg now s c).1.connectionHistory =
        addConnectionEvent s.connectionHistory
          { connectionId := c.id, event := ConnEventKind.connected, timestamp := now,
            details := some ("Client: " ++ c.clientInfo.version) }) := by
  have hinv : PoolInv cfg s := hs ▸ PoolInv_runOps cfg ops
  obtain ⟨hflag, hlen⟩ := hinv
  refine ⟨hlen, ?_, ?_⟩
  · intro c now hfull
    unfold addConnection
    rw [hflag]
    simp only [Bool.false_eq_true, if_false]
    rw [if_pos (by omega)]
    exact ⟨rfl, rfl⟩
  · intro c now hne
    have hlt : s.connections.length < cfg.maxConnections := lt_of_le_of_ne hlen hne
    unfold addConnection
    rw [hflag]
    simp only [Bool.false_eq_true, if_false]
    rw [if_neg (by omega)]
    exact ⟨rfl, mapGet_mapSet_self s.connections c.id c, rfl⟩

/-- Witness for C1 at a concrete pool of capacity 1: after one successful add
the pool is full, a second add fails with the pool-full error and leaves
membership unchanged, while an add into the empty pool succeeds. -/
theorem addConnection_capacity_spec_witness :
    (runOps poolCfg1 initialPool [PoolOp.add (mkConn "a" 0 false false) 0]).connections.length ≤ 1 ∧
    (addConnection poolCfg1 5 (runOps poolCfg1 initialPool [PoolOp.add (mkConn "a" 0 false false) 0])
        (mkConn "b" 3 false false)).2 = some (PoolError.poolFull 1 1) ∧
    (addConnection poolCfg1 7 (runOps poolCfg1 initialPool []) (mkConn "c" 0 false false)).2 = none := by
  refine ⟨(addConnection_capacity_spec poolCfg1 [PoolOp.add (mkConn "a" 0 false false) 0] _ rfl).1,
    ((addConnection_capacity_spec poolCfg1 [PoolOp.add (mkConn "a" 0 false false) 0] _ rfl).2.1
      (mkConn "b" 3 false false) 5 (by decide)).1,
    ((addConnection_capacity_spec poolCfg1 [] _ rfl).2.2 (mkConn "c" 0 false false) 7 (by decide)).1⟩

/-- Claim C9: `removeConnection` is idempotent — a second removal of the same
id leaves the pool state (membership and event history) exactly as after the
first; removing an unknown id is a no-op rather than an error; and when the
id is present the resulting state is the same closed form whatever the
transport close does (`response.end()` failures are swallowed — the
embedding is a total function and the result does not mention the response's
failure flags). -/
theorem removeConnection_idempotent (now now2 : Nat) (s : PoolState) (id : String) :
    removeConnection now2 (removeConnection now s id) id = removeConnection now s id ∧
    (mapGet s.connections id = none → removeConnection now s id = s) ∧
    (∀ c, mapGet s.connections id = some c →
      removeConnection now s id =
        { s with
            connections := mapDelete s.connections id,
            connectionHistory := addConnectionEvent s.connectionHistory
              { connectionId := id, event := ConnEventKind.disconnected,
                timestamp := now, details := none } }) := by
  refine ⟨?_, removeConnection_eq_of_get_none now s id,
    fun c h => removeConnection_eq_of_get_some now s id c h⟩
  apply removeConnection_eq_of_get_none
  rw [removeConnection_connections]
  exact mapGet_mapDelete_self s.connections id

/-- Witness for C9 on a concrete pool whose single connection has a throwing
transport close: double removal equals single removal, removing an unknown
id is the identity, and the single removal has the predicted closed form. -/
theorem removeConnection_idempotent_witness :
    removeConnection 2 (removeConnection 1 samplePoolA "a") "a" = removeConnection 1 samplePoolA "a" ∧
    removeConnection 1 samplePoolA "zzz" = samplePoolA ∧
    removeConnection 1 samplePoolA "a" =
      { samplePoolA with
          connections := mapDelete samplePoolA.connections "a",
          connectionHistory := addConnectionEvent samplePoolA.connectionHistory
            { connectionId := "a", event := ConnEventKind.disconnected,
              timestamp := 1, details := none } } :=
  ⟨(removeConnection_idempotent 1 2 samplePoolA "a").1,
   (removeConnection_idempotent 1 2 samplePoolA "zzz").2.1 (by decide),
   (removeConnection_idempotent 1 2 samplePoolA "a").2.2 (mkConn "a" 0 false true) (by decide)⟩

/-- Claim C6: `shutdown` leaves zero connections in the pool — the fold over
all current ids has settled every removal by the time it returns, including
removals whose transport close throws — marks the pool as draining, and any
`addConnection` attempted on the post-shutdown state, or on any state whose
draining flag is set (i.e. during shutdown), fails with the shutdown
rejection and leaves that state unchanged. -/
theorem shutdown_spec (cfg : HTTPTransportConfig) (now : Nat) (s : PoolState) :
    (shutdown now s).connections = [] ∧
    (shutdown now s).isShuttingDown = true ∧
    (∀ (c : SSEConnection) (now2 : Nat),
      addConnection cfg now2 (shutdown now s) c = (shutdown now s, some PoolError.shuttingDown)) ∧
    (∀ (s2 : PoolState) (c : SSEConnection) (now2 : Nat), s2.isShuttingDown = true →
      addConnection cfg now2 s2 c = (s2, some PoolError.shuttingDown)) := by
  have hconn : (shutdown now s).connections = [] := by
    unfold shutdown
    rw [foldl_removeConnection_connections]
    exact foldl_mapDelete_keys_nil s.connections
  have hflag : (shutdown now s).isShuttingDown = true := by
    unfold shutdown
    rw [foldl_removeConnection_isShuttingDown]
  have hrej : ∀ (s2 : PoolState) (c : SSEConnection) (now2 : Nat), s2.isShuttingDown = true →
      addConnection cfg now2 s2 c = (s2, some PoolError.shuttingDown) := by
    intro s2 c now2 h
    unfold addConnection
    rw [h]
    simp
  exact ⟨hconn, hflag, fun c now2 => hrej _ c now2 hflag, hrej⟩

/-- Witness for C6 on a concrete two-connection pool (one close throws, one
has headers sent): shutdown drains it to zero, a subsequent add fails with
the shutdown rejection, and an add on a draining state fails likewise. -/
theorem shutdown_spec_witness :
    (shutdown 9 samplePoolB).connections = [] ∧
    addConnection poolCfg1 10 (shutdown 9 samplePoolB) (mkConn "c" 0 false false) =
      (shutdown 9 samplePoolB, some PoolError.shuttingDown) ∧
    addConnection poolCfg1 11 drainingPool (mkConn "d" 0 false false) =
      (drainingPool, some PoolError.shuttingDown) :=
  ⟨(shutdown_spec poolCfg1 9 samplePoolB).1,
   (shutdown_spec poolCfg1 9 samplePoolB).2.2.1 (mkConn "c" 0 false false) 10,
   (shutdown_spec poolCfg1 9 samplePoolB).2.2.2 drainingPool (mkConn "d" 0 false false) 11 (by decide)⟩

/-- Claim C10: whenever `addConnection` fails, the membership map is exactly
as before the call; a pool-full rejection appends a single `error` event to
the (1000-bounded) history, while a shutdown rejection returns the state
untouched — neither membership nor history changes. -/
theorem addConnection_failure_state (cfg : HTTPTransportConfig) (now : Nat)
    (s : PoolState) (c : SSEConnection) :
    ((addConnection cfg now s c).2.isSome →
      (addConnection cfg now s c).1.connections = s.connections) ∧
    (s.isShuttingDown = true → addConnection cfg now s c = (s, some PoolError.shuttingDown)) ∧
    (s.isShuttingDown = false → cfg.maxConnections ≤ s.connections.length →
      (addConnection cfg now s c).1.connections = s.connections ∧
      (addConnection cfg now s c).1.connectionHistory =
        addConnectionEvent s.connectionHistory
          { connectionId := c.id, event := ConnEventKind.error, timestamp := now,
            details := some (PoolError.poolFull cfg.maxConnections s.connections.length).message } ∧
      (addConnection cfg now s c).2 = some (PoolError.poolFull cfg.maxConnections s.connections.length) ∧
      (s.connectionHistory.length ≤ 1000 →
        (addConnection cfg now s c).1.connectionHistory.length ≤ 1000)) := by
  by_cases hflag : s.isShuttingDown = true
  · have hadd : addConnection cfg now s c = (s, some PoolError.shuttingDown) := by
      unfold addConnection
      rw [hflag]
      simp
    refine ⟨fun _ => by rw [hadd], fun _ => hadd, ?_⟩
    intro hcontra
    rw [hflag] at hcontra
    exact absurd hcontra (by simp)
  · have hflag' : s.isShuttingDown = false := by simpa using hflag
    unfold addConnection
    rw [hflag']
    simp only [Bool.false_eq_true, if_false]
    by_cases hfull : cfg.maxConnections ≤ s.connections.length
    · rw [if_pos hfull]
      refine ⟨fun _ => rfl, fun h => absurd h (by simp [hflag']), ?_⟩
      intro _ _
      exact ⟨rfl, rfl, rfl,
        fun hb => length_addConnectionEvent_le s.connectionHistory _ hb⟩
    · rw [if_neg hfull]
      refine ⟨fun habs => by simp at habs, fun h => absurd h (by simp [hflag']), ?_⟩
      intro _ hcontra
      exact absurd hcontra hfull

/-- Witness for C10: on a full one-slot pool a rejected add leaves membership
unchanged and appends the `error` event; on a draining pool the state is
returned untouched. -/
theorem addConnection_failure_state_witness :
    (addConnection poolCfg1 3 samplePoolA (mkConn "b" 0 false false)).1.connections =
      samplePoolA.connections ∧
    (addConnection poolCfg1 3 samplePoolA (mkConn "b" 0 false false)).1.connectionHistory =
      addConnectionEvent samplePoolA.connectionHistory
        { connectionId := "b", event := ConnEventKind.error, timestamp := 3,
          details := some (PoolError.poolFull 1 samplePoolA.connections.length).message } ∧
    addConnection poolCfg1 4 drainingPool (mkConn "b" 0 false false) =
      (drainingPool, some PoolError.shuttingDown) :=
  ⟨((addConnection_failure_state poolCfg1 3 samplePoolA (mkConn "b" 0 false false)).2.2
      (by decide) (by decide)).1,
   ((addConnection_failure_state poolCfg1 3 samplePoolA (mkConn "b" 0 false false)).2.2
      (by decide) (by decide)).2.1,
   (addConnection_failure_state poolCfg1 4 drainingPool (mkConn "b" 0 false false)).2.1 (by decide)⟩

/-- Claim C8: at a sweep, every connection idle strictly longer than
`connectionTimeout` is removed from the pool and a `timeout` event — a kind
distinct from the `disconnected` kind used for client-initiated removals —
is recorded for it, while connections within the timeout stay in the pool.
(Hypotheses: pool keys are distinct, as the JS `Map` guarantees, and the
event history has room so the bounded ring does not evict the new events.) -/
theorem cleanup_sweep_spec (cfg : HTTPTransportConfig) (now : Nat) (s : PoolState)
    (hnd : (s.connections.map (fun p => p.1)).Nodup)
    (hb : s.connectionHistory.length + 2 * s.connections.length ≤ 1000) :
    (∀ id c, (id, c) ∈ s.connections →
      (cfg.connectionTimeout < now - c.lastActivity →
        mapGet (cleanupInactiveConnections cfg now s).1.connections id = none ∧
        ∃ e ∈ (cleanupInactiveConnections cfg now s).1.connectionHistory,
          e.connectionId = id ∧ e.event = ConnEventKind.timeout) ∧
      (¬ cfg.connectionTimeout < now - c.lastActivity →
        (id, c) ∈ (cleanupInactiveConnections cfg now s).1.connections)) ∧
    ConnEventKind.timeout ≠ ConnEventKind.disconnected := by
  have hexplen : (sweepExpired cfg now s).length ≤ s.connections.length :=
    List.length_filter_le _ _
  have hhist1 : sweepHistory cfg now s =
      s.connectionHistory ++ (sweepExpired cfg now s).map (sweepTimeoutEvent now) :=
    foldl_addConnectionEvent_append (sweepTimeoutEvent now) (sweepExpired cfg now s)
      s.connectionHistory (by omega)
  have hconn : (cleanupInactiveConnections cfg now s).1.connections =
      s.connections.filter
        (fun p => decide (p.1 ∉ (sweepExpired cfg now s).map (fun q => q.1))) := by
    show ((sweepExpired cfg now s).foldl (fun st p => removeConnection now st p.1)
        { s with connectionHistory := sweepHistory cfg now s }).connections = _
    rw [← List.foldl_map (fun q : String × SSEConnection => q.1)
      (fun st id => removeConnection now st id) (sweepExpired cfg now s)]
    rw [foldl_removeConnection_connections]
    exact foldl_mapDelete_eq_filter _ _
  have hlen1 : (sweepHistory cfg now s).length =
      s.connectionHistory.length + (sweepExpired cfg now s).length := by
    rw [hhist1]; simp
  have hpre : sweepHistory cfg now s <+:
      (cleanupInactiveConnections cfg now s).1.connectionHistory := by
    show sweepHistory cfg now s <+:
      ((sweepExpired cfg now s).foldl (fun st p => removeConnection now st p.1)
        { s with connectionHistory := sweepHistory cfg now s }).connectionHistory
    rw [← List.foldl_map (fun q : String × SSEConnection => q.1)
      (fun st id => removeConnection now st id) (sweepExpired cfg now s)]
    exact (foldl_removeConnection_history_extends now
      ((sweepExpired cfg now s).map (fun q => q.1))
      { s with connectionHistory := sweepHistory cfg now s }
      (by
        show (sweepHistory cfg now s).length +
            ((sweepExpired cfg now s).map (fun q => q.1)).length ≤ 1000
        rw [List.length_map, hlen1]
        omega)).1
  refine ⟨?_, by decide⟩
  intro id c hmem
  constructor
  · intro hcond
    have hexp : (id, c) ∈ sweepExpired cfg now s := by
      unfold sweepExpired
      exact List.mem_filter.mpr ⟨hmem, by simpa using hcond⟩
    have hid : id ∈ (sweepExpired cfg now s).map (fun q => q.1) :=
      List.mem_map_of_mem (fun q => q.1) hexp
    constructor
    · rw [hconn]
      unfold mapGet
      rw [Option.map_eq_none']
      rw [List.find?_eq_none]
      intro p hp heq
      have hkeep : p.1 ∉ (sweepExpired cfg now s).map (fun q => q.1) :=
        of_decide_eq_true (List.mem_filter.mp hp).2
      have hpid : p.1 = id := of_decide_eq_true heq
      exact hkeep (hpid ▸ hid)
    · refine ⟨sweepTimeoutEvent now (id, c), ?_, rfl, rfl⟩
      apply hpre.subset
      rw [hhist1]
      exact List.mem_append_right _ (List.mem_map_of_mem _ hexp)
  · intro hcond
    have hid : id ∉ (sweepExpired cfg now s).map (fun q => q.1) := by
      intro hin
      obtain ⟨q, hq, hq1⟩ := List.mem_map.mp hin
      have hqmem : q ∈ s.connections := List.mem_of_mem_filter hq
      have hqcond : cfg.connectionTimeout < now - q.2.lastActivity := by
        have := (List.mem_filter.mp hq).2
        simpa using this
      have hqeq : q = (id, c) :=
        List.inj_on_of_nodup_map hnd hqmem hmem (by simpa using hq1)
      rw [hqeq] at hqcond
      exact hcond hqcond
    rw [hconn]
    exact List.mem_filter.mpr ⟨hmem, by simpa using hid⟩

/-- Witness for C8 on a concrete pool (timeout 1000ms, sweep at t=5500):
the connection idle since t=0 is removed with a `timeout` event recorded;
the connection idle since t=5000 stays. -/
theorem cleanup_sweep_spec_witness :
    mapGet (cleanupInactiveConnections poolCfg1 5500 samplePoolC).1.connections "old" = none ∧
    (∃ e ∈ (cleanupInactiveConnections poolCfg1 5500 samplePoolC).1.connectionHistory,
      e.connectionId = "old" ∧ e.event = ConnEventKind.timeout) ∧
    ("new", mkConn "new" 5000 false false) ∈
      (cleanupInactiveConnections poolCfg1 5500 samplePoolC).1.connections :=
  ⟨(((cleanup_sweep_spec poolCfg1 5500 samplePoolC (by decide) (by decide)).1
      "old" (mkConn "old" 0 false false) (by decide)).1 (by decide)).1,
   (((cleanup_sweep_spec poolCfg1 5500 samplePoolC (by decide) (by decide)).1
      "old" (mkConn "old" 0 false false) (by decide)).1 (by decide)).2,
   ((cleanup_sweep_spec poolCfg1 5500 samplePoolC (by decide) (by decide)).1
      "new" (mkConn "new" 5000 false false) (by decide)).2 (by decide)⟩

/-! ## Step lemmas for the retry loop -/

theorem runRetry_succ_ok (op : Nat → Except Thrown JSVal) (d attempt r : Nat) (v : JSVal)
    (h : op attempt = Except.ok v) :
    runRetry op d attempt (r + 1) =
      { result := Except.ok v, attemptsMade := 1, delays := [] } := by
  simp [runRetry, h]

theorem runRetry_succ_err (op : Nat → Except Thrown JSVal) (d attempt r : Nat) (e : Thrown)
    (h : op attempt = Except.error e) (hr : r ≠ 0) :
    runRetry op d attempt (r + 1) =
      { result := (runRetry op d (attempt + 1) r).result,
        attemptsMade := (runRetry op d (attempt + 1) r).attemptsMade + 1,
        delays := d * 2 ^ (attempt - 1) :: (runRetry op d (attempt + 1) r).delays } := by
  conv_lhs => rw [runRetry]
  rw [h]
  simp [hr]

theorem runRetry_last_err (op : Nat → Except Thrown JSVal) (d attempt : Nat) (e : Thrown)
    (h : op attempt = Except.error e) :
    runRetry op d attempt 1 =
      { result := Except.error (toError e), attemptsMade := 1, delays := [] } := by
  conv_lhs => rw [runRetry]
  rw [h]
  simp

theorem runRetry_all_errors (errs : Nat → Thrown) (d : Nat) :
    ∀ (r attempt : Nat), 1 ≤ r →
      (runRetry (fun i => Except.error (errs i)) d attempt r).result =
        Except.error (toError (errs (attempt + r - 1))) ∧
      (runRetry (fun i => Except.error (errs i)) d attempt r).attemptsMade = r := by
  intro r
  induction r with
  | zero => intro attempt h; omega
  | succ n ih =>
    intro attempt _
    by_cases hn : n = 0
    · subst hn
      rw [runRetry_last_err _ d attempt (errs attempt) rfl]
      refine ⟨?_, rfl⟩
      have harith : attempt + 1 - 1 = attempt := by omega
      rw [harith]
    · have h1 : 1 ≤ n := by omega
      rw [runRetry_succ_err _ d attempt n (errs attempt) rfl hn]
      obtain ⟨hres, hatt⟩ := ih (attempt + 1) h1
      refine ⟨?_, ?_⟩
      · rw [hres]
        have harith : attempt + 1 + n - 1 = attempt + (n + 1) - 1 := by omega
        rw [harith]
      · simp [hatt]

/-- Claim C5: the timeout race returns the operation's settlement when the
operation settles within the duration (`Promise.race` resolves to the
first-settled promise, and the timer never fires early), and otherwise fails
with the timeout error at exactly the duration — time `timeoutMs`, not
before. -/
theorem withTimeout_spec (operation : TimedOutcome) (timeoutMs : Nat) :
    (operation.time ≤ timeoutMs → withTimeout operation timeoutMs = operation) ∧
    (timeoutMs < operation.time →
      withTimeout operation timeoutMs =
        { time := timeoutMs, result := Except.error (timeoutThrown timeoutMs) }) := by
  constructor
  · intro h
    unfold withTimeout promiseRace
    rw [if_pos h]
  · intro h
    unfold withTimeout promiseRace
    dsimp only
    rw [if_neg (by omega)]

/-- Witness for C5: an operation settling at t=5 beats a 10ms timeout and its
result is returned; an operation settling at t=50 loses and the timeout
error is produced at exactly t=10. -/
theorem withTimeout_spec_witness :
    withTimeout { time := 5, result := Except.ok JSVal.null } 10 =
      { time := 5, result := Except.ok JSVal.null } ∧
    withTimeout { time := 50, result := Except.ok JSVal.null } 10 =
      { time := 10, result := Except.error (timeoutThrown 10) } :=
  ⟨(withTimeout_spec { time := 5, result := Except.ok JSVal.null } 10).1 (by decide),
   (withTimeout_spec { time := 50, result := Except.ok JSVal.null } 10).2 (by decide)⟩

/-- Claim C7: under `maxRetries = 3` and base delay `d`, an operation failing
on its first two invocations and succeeding on the third returns the success
value, is invoked exactly 3 times, and the backoff delays are
`d * 2 ^ (attempt - 1)`, i.e. `[d, 2d]` — strictly increasing whenever
`d ≥ 1`; an operation failing on every attempt makes the wrapper re-raise
the last error (after the `Error`-instance normalization the loop applies)
once the attempts are exhausted. -/
theorem withRetry_spec (delayMs : Nat) (op : Nat → Except Thrown JSVal)
    (e1 e2 : Thrown) (v : JSVal)
    (h1 : op 1 = Except.error e1) (h2 : op 2 = Except.error e2) (h3 : op 3 = Except.ok v) :
    ((withRetry op 3 delayMs).result = Except.ok v ∧
      (withRetry op 3 delayMs).attemptsMade = 3 ∧
      (withRetry op 3 delayMs).delays = [delayMs, 2 * delayMs] ∧
      (1 ≤ delayMs → delayMs < 2 * delayMs)) ∧
    (∀ errs : Nat → Thrown,
      (withRetry (fun i => Except.error (errs i)) 3 delayMs).result =
        Except.error (toError (errs 3)) ∧
      (withRetry (fun i => Except.error (errs i)) 3 delayMs).attemptsMade = 3) := by
  have ha : runRetry op delayMs 3 1 =
      { result := Except.ok v, attemptsMade := 1, delays := [] } :=
    runRetry_succ_ok op delayMs 3 0 v h3
  have hb : runRetry op delayMs 2 2 =
      { result := (runRetry op delayMs 3 1).result,
        attemptsMade := (runRetry op delayMs 3 1).attemptsMade + 1,
        delays := delayMs * 2 ^ (2 - 1) :: (runRetry op delayMs 3 1).delays } :=
    runRetry_succ_err op delayMs 2 1 e2 h2 (by decide)
  have hc : runRetry op delayMs 1 3 =
      { result := (runRetry op delayMs 2 2).result,
        attemptsMade := (runRetry op delayMs 2 2).attemptsMade + 1,
        delays := delayMs * 2 ^ (1 - 1) :: (runRetry op delayMs 2 2).delays } :=
    runRetry_succ_err op delayMs 1 2 e1 h1 (by decide)
  have hfinal : withRetry op 3 delayMs =
      { result := Except.ok v, attemptsMade := 3, delays := [delayMs, 2 * delayMs] } := by
    unfold withRetry
    rw [hc, hb, ha]
    norm_num
    ring
  refine ⟨⟨by rw [hfinal], by rw [hfinal], by rw [hfinal], fun h => by omega⟩, ?_⟩
  intro errs
  have h := runRetry_all_errors errs delayMs 3 1 (by decide)
  unfold withRetry
  simpa using h

/-- Witness for C7: with base delay 7, an operation failing twice then
returning 42 yields success with 3 invocations and delays `[7, 14]`; the
always-failing operation re-raises its final error. -/
theorem withRetry_spec_witness :
    (withRetry (fun i => if i = 3 then Except.ok (JSVal.num 42)
        else Except.error (Thrown.jsError "boom" none)) 3 7).result =
      Except.ok (JSVal.num 42) ∧
    (withRetry (fun i => if i = 3 then Except.ok (JSVal.num 42)
        else Except.error (Thrown.jsError "boom" none)) 3 7).attemptsMade = 3 ∧
    (withRetry (fun i => if i = 3 then Except.ok (JSVal.num 42)
        else Except.error (Thrown.jsError "boom" none)) 3 7).delays = [7, 14] ∧
    (withRetry (fun i => Except.error (Thrown.jsError (toString i) none)) 3 7).result =
      Except.error (Thrown.jsError "3" none) := by
  have h := withRetry_spec 7
    (fun i => if i = 3 then Except.ok (JSVal.num 42) else Except.error (Thrown.jsError "boom" none))
    (Thrown.jsError "boom" none) (Thrown.jsError "boom" none) (JSVal.num 42)
    rfl rfl rfl
  exact ⟨h.1.1, h.1.2.1, h.1.2.2.1,
    (h.2 (fun i => Thrown.jsError (toString i) none)).1⟩

/-- Claim C3 (amended): the retry wrapper itself performs no error-kind
classification — an operation that keeps failing with the
`ValidationError`-kind error (`ToolExecutionError('Invalid arguments
provided')`) is re-invoked like any other failure, `maxRetries` times in
total, and the same error is re-raised at the end. What does hold is that a
spec-`ValidationError` arising from argument validation never reaches the
retry wrapper: `createSafeTool` short-circuits on validation failure before
`executeWithResilience`, so the handler is invoked zero times and no retry
occurs. -/
theorem withRetry_no_kind_shortcircuit :
    (∀ (e : MCPError) (maxRetries delayMs : Nat), 1 ≤ maxRetries →
      (withRetry (fun _ => Except.error (Thrown.mcpError e)) maxRetries delayMs).attemptsMade =
        maxRetries ∧
      (withRetry (fun _ => Except.error (Thrown.mcpError e)) maxRetries delayMs).result =
        Except.error (Thrown.mcpError e)) ∧
    (∀ (toolName : String) (validator : JSVal → Bool) (handler : Nat → TimedOutcome)
        (args : JSVal), validator args = false →
      (dispatch toolName validator handler args).handlerCalls = 0) := by
  constructor
  · intro e maxRetries delayMs h
    have hall := runRetry_all_errors (fun _ => Thrown.mcpError e) delayMs maxRetries 1 h
    unfold withRetry
    exact ⟨hall.2, hall.1⟩
  · intro toolName validator handler args h
    unfold dispatch validateToolArgs
    rw [h]
    simp

/-- Witness for C3 (amended): the constant-`ValidationError` operation is
invoked twice under `maxRetries = 2`, and a dispatch whose arguments fail
validation never invokes the handler. -/
theorem withRetry_no_kind_shortcircuit_witness :
    (withRetry (fun _ => Except.error (Thrown.mcpError sampleValidationError)) 2 5).attemptsMade =
      2 ∧
    (dispatch "get_workflow" isGetWorkflowArgs okHandler (JSVal.obj [])).handlerCalls = 0 :=
  ⟨(withRetry_no_kind_shortcircuit.1 sampleValidationError 2 5 (by decide)).1,
   withRetry_no_kind_shortcircuit.2 "get_workflow" isGetWorkflowArgs okHandler
     (JSVal.obj []) rfl⟩

/-- Counterexample for C3 as stated: an operation that always fails with the
exact `ValidationError` `validateToolArgs` produces is nonetheless
re-invoked by `withRetry` — 3 invocations under `maxRetries = 3`, not the
single invocation the claim requires. -/
theorem withRetry_retries_validation_error :
    (withRetry (fun _ => Except.error (Thrown.mcpError sampleValidationError)) 3 1000).attemptsMade
      = 3 ∧
    ¬ (withRetry (fun _ => Except.error (Thrown.mcpError sampleValidationError)) 3 1000).attemptsMade
      = 1 := by
  constructor
  · rfl
  · intro h
    have h3 : (withRetry (fun _ => Except.error (Thrown.mcpError sampleValidationError))
        3 1000).attemptsMade = 3 := rfl
    rw [h3] at h
    exact absurd h (by decide)

/-- Claim C2: the dispatch wrapper never lets an exception escape. Handler
behaviour ranges over all settlements, including rejections carrying
arbitrary thrown values; every path of `createSafeTool`'s wrapper produces a
`ToolResult` — a success response or the structured error response — and
`safeToolExecution` likewise returns the handler's response on resolution
and a structured error response on any thrown value. -/
theorem dispatch_no_exception_escapes :
    (∀ (toolName : String) (validator : JSVal → Bool) (handler : Nat → TimedOutcome)
        (args : JSVal),
      (dispatch toolName validator handler args).response.isError = false ∨
        isStructuredErrorResponse (dispatch toolName validator handler args).response) ∧
    (∀ (toolName : String) (args : JSVal) (handlerResult : Except Thrown ToolResponse),
      (∃ r, handlerResult = Except.ok r ∧ safeToolExecution toolName args handlerResult = r) ∨
        isStructuredErrorResponse (safeToolExecution toolName args handlerResult)) := by
  constructor
  · intro toolName validator handler args
    unfold dispatch
    cases hv : validateToolArgs args validator toolName with
    | failure e =>
      right
      exact ⟨rfl, e.code, e.details, rfl⟩
    | success d =>
      cases hr : (executeWithResilience handler 2 30000 1000).result with
      | ok v => left; rfl
      | error err =>
        right
        exact ⟨rfl, (createMCPError toolName err args).code,
          (createMCPError toolName err args).details, rfl⟩
  · intro toolName args handlerResult
    cases handlerResult with
    | ok r => left; exact ⟨r, rfl, rfl⟩
    | error e =>
      right
      exact ⟨rfl, (createMCPError toolName e args).code,
        (createMCPError toolName e args).details, rfl⟩

/-- Claim C4 (amended): when the raw arguments fail the tool's declared
argument schema, dispatch returns the `Failure(ValidationError)` response
(code `TOOL_EXECUTION_ERROR`, the spec's `ValidationError` classification)
whose details carry the tool name, the fixed string
`'Invalid arguments provided'` and the raw arguments — not the names of the
offending field(s) — and the handler is never invoked: zero handler calls,
hence no upstream API call and no retry. -/
theorem dispatch_validation_failure (toolName : String) (validator : JSVal → Bool)
    (handler : Nat → TimedOutcome) (args : JSVal) (h : validator args = false) :
    dispatch toolName validator handler args =
      { response := createErrorResponse
          (mkToolExecutionError toolName "Invalid arguments provided" args) toolName,
        handlerCalls := 0 } ∧
    (dispatch toolName validator handler args).response.isError = true ∧
    (dispatch toolName validator handler args).response.metadata =
      JSVal.obj
        [("errorCode", JSVal.str "TOOL_EXECUTION_ERROR"),
         ("errorDetails", JSVal.obj
           [("toolName", JSVal.str toolName),
            ("originalError", JSVal.str "Invalid arguments provided"),
            ("args", args)])] := by
  have hd : dispatch toolName validator handler args =
      { response := createErrorResponse
          (mkToolExecutionError toolName "Invalid arguments provided" args) toolName,
        handlerCalls := 0 } := by
    unfold dispatch validateToolArgs
    rw [h]
    simp
  refine ⟨hd, ?_, ?_⟩
  · rw [hd]
    rfl
  · rw [hd]
    rfl

/-- Witness for C4 (amended): a `get_workflow` dispatch on the empty object
(missing `workflowId`) yields the validation-error response with zero
handler invocations. -/
theorem dispatch_validation_failure_witness :
    (dispatch "get_workflow" isGetWorkflowArgs okHandler (JSVal.obj [])).handlerCalls = 0 ∧
    (dispatch "get_workflow" isGetWorkflowArgs okHandler (JSVal.obj [])).response.isError = true :=
  ⟨by rw [(dispatch_validation_failure "get_workflow" isGetWorkflowArgs okHandler
      (JSVal.obj []) rfl).1],
   (dispatch_validation_failure "get_workflow" isGetWorkflowArgs okHandler
      (JSVal.obj []) rfl).2.1⟩

/-- Counterexample for C4 as stated: the empty object fails `get_workflow`
validation because `workflowId` is missing and fails `create_workflow`
validation because `name` is missing, yet the two dispatches produce
identical failure responses — the details carry only the fixed message
`'Invalid arguments provided'` and the raw args, so they name no offending
field. -/
theorem dispatch_validation_details_generic :
    isGetWorkflowArgs (JSVal.obj []) = false ∧
    isCreateWorkflowArgs (JSVal.obj []) = false ∧
    dispatch "tool" isGetWorkflowArgs okHandler (JSVal.obj []) =
      dispatch "tool" isCreateWorkflowArgs okHandler (JSVal.obj []) ∧
    (dispatch "tool" isGetWorkflowArgs okHandler (JSVal.obj [])).response.metadata =
      JSVal.obj
        [("errorCode", JSVal.str "TOOL_EXECUTION_ERROR"),
         ("errorDetails", JSVal.obj
           [("toolName", JSVal.str "tool"),
            ("originalError", JSVal.str "Invalid arguments provided"),
            ("args", JSVal.obj [])])] :=
  ⟨rfl, rfl, rfl, rfl⟩
